import Mathlib

/-! Shallow embedding of the BACKEND-BLOCK-ID trust oracle programs.

Two program variants from the repository are modelled:
* namespace `trust_oracle`   — src/solana_trust_oracle/lib.rs
* namespace `blockid_oracle` — src/programs/blockid_oracle/src/lib.rs

Modelling conventions:
* A Solana public key is a 32-byte value, modelled as a natural number
  below 256 ^ 32; `toBytes 32` gives its little-endian byte serialization.
* The program-derived address (PDA) of a record is identified with its seed
  material, the list of bytes b"trust_score" ++ oracle.key ++ wallet.key
  (both programs use exactly these seeds).  The host runtime maps seed
  material to an address by a fixed collision-resistant one-way function,
  so derivations coincide exactly when their seed material coincides; the
  hash itself is host machinery outside the repository and is modelled as
  the identity on seed material.
* Account storage is a finite map from addresses to account data,
  represented as an association list; `init_if_needed` plus a body that
  overwrites every field is an upsert (`putAcct`).
* `Clock::get()?.unix_timestamp` is an input `now` supplied by the host.
* A failing instruction aborts the whole transaction, so an error result
  carries no store: storage is observably unchanged on any failure.
* Anchor performs instruction-data deserialization before account
  resolution, and account constraints (seeds, account load) before the
  instruction body; the definitions follow that order.
-/

namespace BlockId

/-- Little-endian byte serialization of a natural number into `n` bytes,
modelling the 32-byte wire form of a Solana `Pubkey`. -/
def toBytes : Nat → Nat → List Nat
  | 0, _ => []
  | n + 1, k => (k % 256) :: toBytes n (k / 256)

/-- Reassemble a natural number from little-endian bytes (left inverse of
`toBytes`, used to prove injectivity of address derivation). -/
def ofBytes : List Nat → Nat
  | [] => 0
  | b :: bs => b + 256 * ofBytes bs

/-- ASCII bytes of the seed tag b"trust_score" used by both programs. -/
def trustScoreTag : List Nat :=
  [116, 114, 117, 115, 116, 95, 115, 99, 111, 114, 101]

/-- Seed material of the PDA holding the record for an (oracle, wallet)
pair: seeds = [b"trust_score", oracle.key().as_ref(), wallet.key().as_ref()],
as written in the `#[account(..., seeds = ..., bump)]` attribute of both
programs.  The derived address is identified with this seed material. -/
def deriveAddress (oracle wallet : Nat) : List Nat :=
  trustScoreTag ++ toBytes 32 oracle ++ toBytes 32 wallet

/-- The host ledger's account store: a finite map from addresses (byte
lists) to account data, as an association list. -/
abbrev KVStore (α : Type) : Type := List (List Nat × α)

/-- Fetch the account stored at an address, if any. -/
def lookupAcct {α : Type} : KVStore α → List Nat → Option α
  | [], _ => none
  | (a, r) :: rest, addr => if a = addr then some r else lookupAcct rest addr

/-- Upsert: overwrite the account at an address, allocating it if absent
(models `init_if_needed` followed by a body that writes every field). -/
def putAcct {α : Type} : KVStore α → List Nat → α → KVStore α
  | [], addr, r => [(addr, r)]
  | (a, x) :: rest, addr, r =>
      if a = addr then (a, r) :: rest else (a, x) :: putAcct rest addr r

namespace trust_oracle

/-- RiskLevel enum of src/solana_trust_oracle/lib.rs (repr u8):
Low = 0, Medium = 1, High = 2, Critical = 3. -/
inductive RiskLevel where
  | low
  | medium
  | high
  | critical
deriving DecidableEq

/-- The u8 discriminant of a `RiskLevel` value. -/
def RiskLevel.toByte : RiskLevel → Nat
  | .low => 0
  | .medium => 1
  | .high => 2
  | .critical => 3

/-- AnchorDeserialize of a `RiskLevel` from its wire byte: exactly the four
discriminants 0..3 parse; any other byte fails deserialization. -/
def parseRiskLevel (b : Nat) : Option RiskLevel :=
  if b = 0 then some .low
  else if b = 1 then some .medium
  else if b = 2 then some .high
  else if b = 3 then some .critical
  else none

/-- TrustScoreAccount of src/solana_trust_oracle/lib.rs: wallet pubkey,
score 0-100 (u8), risk level, unix timestamp of last update (i64), and the
oracle authority pubkey. -/
structure TrustScoreAccount where
  wallet_pubkey : Nat
  trust_score : Nat
  risk_level : RiskLevel
  last_updated : Int
  oracle_pubkey : Nat
deriving DecidableEq

/-- TrustOracleError of src/solana_trust_oracle/lib.rs: the only two error
codes the program declares. -/
inductive TrustOracleError where
  | invalidTrustScore
  | unauthorizedOracle
deriving DecidableEq

end trust_oracle

/-- Observable failure of an instruction: either one of the trust oracle
program's own error codes, or a failure raised by the Anchor framework
while resolving the instruction (seeds-constraint violation, instruction
data that does not deserialize, or an account that is not initialized). -/
inductive AnchorFailure where
  | program (e : trust_oracle.TrustOracleError)
  | constraintSeeds
  | instructionDidNotDeserialize
  | accountNotInitialized
deriving DecidableEq

namespace trust_oracle

/-- Account store of the trust oracle variant. -/
abbrev Store : Type := KVStore TrustScoreAccount

/-- The update_trust_score instruction of src/solana_trust_oracle/lib.rs,
as processed end to end: the wire byte of `risk_level` must deserialize
(Anchor, before account resolution); the supplied trust_score_account
address must equal the PDA derived from the signing oracle and the wallet
(seeds constraint of `UpdateTrustScore`); the body requires
trust_score <= 100 else `TrustOracleError::InvalidTrustScore`, then writes
wallet_pubkey, trust_score, risk_level, last_updated = now and
oracle_pubkey, creating the account if needed.  Any failure aborts the
transaction, leaving storage unchanged. -/
def update_trust_score (s : Store) (acctAddr : List Nat)
    (oracle wallet : Nat) (trust_score riskByte : Nat) (now : Int) :
    Except AnchorFailure Store :=
  match parseRiskLevel riskByte with
  | none => .error .instructionDidNotDeserialize
  | some risk_level =>
    if acctAddr = deriveAddress oracle wallet then
      if trust_score ≤ 100 then
        .ok (putAcct s acctAddr
          { wallet_pubkey := wallet
            trust_score := trust_score
            risk_level := risk_level
            last_updated := now
            oracle_pubkey := oracle })
      else .error (.program .invalidTrustScore)
    else .error .constraintSeeds

/-- The get_trust_score instruction of src/solana_trust_oracle/lib.rs: the
body is a no-op, but Anchor must load trust_score_account (failing when no
record is allocated at the address) and check its seeds constraint. -/
def get_trust_score (s : Store) (acctAddr : List Nat)
    (oracle wallet : Nat) : Except AnchorFailure Unit :=
  match lookupAcct s acctAddr with
  | none => .error .accountNotInitialized
  | some _ =>
      if acctAddr = deriveAddress oracle wallet then .ok ()
      else .error .constraintSeeds

/-- States of the account store reachable through the program: the empty
store, plus any successful update_trust_score step whose signer and wallet
keys are genuine 32-byte public keys and whose arguments fit in a u8.
get_trust_score does not modify storage and so adds no step. -/
inductive Reachable : Store → Prop where
  | init : Reachable []
  | step (s s' : Store) (acctAddr : List Nat)
      (oracle wallet trust_score riskByte : Nat) (now : Int)
      (ho : oracle < 256 ^ 32) (hw : wallet < 256 ^ 32)
      (hsc : trust_score < 256) (hrb : riskByte < 256)
      (hs : Reachable s)
      (hok : update_trust_score s acctAddr oracle wallet trust_score riskByte now
               = Except.ok s') :
      Reachable s'

end trust_oracle

namespace blockid_oracle

/-- TrustScoreAccount of src/programs/blockid_oracle/src/lib.rs: wallet
pubkey, score (u8, unvalidated), risk (raw u8, unvalidated), unix
timestamp; this variant stores no oracle field. -/
structure TrustScoreAccount where
  wallet : Nat
  score : Nat
  risk : Nat
  updated_at : Int
deriving DecidableEq

/-- Account store of the blockid_oracle variant. -/
abbrev Store : Type := KVStore TrustScoreAccount

/-- The update_trust_score instruction of
src/programs/blockid_oracle/src/lib.rs: the supplied trust_score_account
address must equal the PDA derived from the signing oracle and the wallet
(seeds constraint); the body performs no validation at all and writes
wallet, score, risk and updated_at = now, creating the account if
needed. -/
def update_trust_score (s : Store) (acctAddr : List Nat)
    (oracle wallet : Nat) (score risk : Nat) (now : Int) :
    Except AnchorFailure Store :=
  if acctAddr = deriveAddress oracle wallet then
    .ok (putAcct s acctAddr
      { wallet := wallet
        score := score
        risk := risk
        updated_at := now })
  else .error .constraintSeeds

/-- States of the blockid_oracle account store reachable through the
program: the empty store plus successful update_trust_score steps with
genuine 32-byte keys and u8 arguments. -/
inductive Reachable : Store → Prop where
  | init : Reachable []
  | step (s s' : Store) (acctAddr : List Nat)
      (oracle wallet score risk : Nat) (now : Int)
      (ho : oracle < 256 ^ 32) (hw : wallet < 256 ^ 32)
      (hsc : score < 256) (hrk : risk < 256)
      (hs : Reachable s)
      (hok : update_trust_score s acctAddr oracle wallet score risk now
               = Except.ok s') :
      Reachable s'

end blockid_oracle

/-- Serializing into `n` bytes yields a list of length `n`. -/
theorem toBytes_length (n : Nat) : ∀ k, (toBytes n k).length = n := by
  induction n with
  | zero => intro k; rfl
  | succ n ih => intro k; simpa [toBytes] using ih (k / 256)

/-- Reassembling the `n`-byte serialization of `k < 256 ^ n` recovers `k`. -/
theorem ofBytes_toBytes (n : Nat) : ∀ k, k < 256 ^ n → ofBytes (toBytes n k) = k := by
  induction n with
  | zero =>
      intro k hk
      interval_cases k
      rfl
  | succ n ih =>
      intro k hk
      have hk2 : k < 256 * 256 ^ n := by rw [mul_comm, ← pow_succ]; exact hk
      have hdiv : k / 256 < 256 ^ n := Nat.div_lt_of_lt_mul hk2
      simp [toBytes, ofBytes, ih (k / 256) hdiv, Nat.mod_add_div]

/-- Byte serialization is injective on genuine `n`-byte values. -/
theorem toBytes_inj {n a b : Nat} (ha : a < 256 ^ n) (hb : b < 256 ^ n)
    (h : toBytes n a = toBytes n b) : a = b := by
  have := congrArg ofBytes h
  rwa [ofBytes_toBytes n a ha, ofBytes_toBytes n b hb] at this

/-- Address derivation is injective: two (oracle, wallet) pairs of genuine
32-byte keys with the same derived address are the same pair. -/
theorem deriveAddress_inj {o1 w1 o2 w2 : Nat}
    (ho1 : o1 < 256 ^ 32) (hw1 : w1 < 256 ^ 32)
    (ho2 : o2 < 256 ^ 32) (hw2 : w2 < 256 ^ 32)
    (h : deriveAddress o1 w1 = deriveAddress o2 w2) : o1 = o2 ∧ w1 = w2 := by
  unfold deriveAddress at h
  have hlen : (trustScoreTag ++ toBytes 32 o1).length
      = (trustScoreTag ++ toBytes 32 o2).length := by
    simp [toBytes_length]
  obtain ⟨h1, hww⟩ := List.append_inj h hlen
  have hoo := (List.append_inj h1 rfl).2
  exact ⟨toBytes_inj ho1 ho2 hoo, toBytes_inj hw1 hw2 hww⟩

/-- Lookup after upsert at the same address returns the new account. -/
theorem lookupAcct_putAcct_self {α : Type} (s : KVStore α) (addr : List Nat)
    (r : α) : lookupAcct (putAcct s addr r) addr = some r := by
  induction s with
  | nil => simp [putAcct, lookupAcct]
  | cons p rest ih =>
      obtain ⟨a, x⟩ := p
      by_cases hax : a = addr
      · simp [putAcct, lookupAcct, hax]
      · simp [putAcct, lookupAcct, hax, ih]

/-- Lookup after upsert at a different address is unchanged. -/
theorem lookupAcct_putAcct_ne {α : Type} (s : KVStore α) (addr addr2 : List Nat)
    (r : α) (h : addr2 ≠ addr) :
    lookupAcct (putAcct s addr r) addr2 = lookupAcct s addr2 := by
  induction s with
  | nil =>
      have hne : addr ≠ addr2 := fun hc => h hc.symm
      simp [putAcct, lookupAcct, hne]
  | cons p rest ih =>
      obtain ⟨a, x⟩ := p
      by_cases hax : a = addr
      · subst hax
        have hne : a ≠ addr2 := fun hc => h hc.symm
        simp [putAcct, lookupAcct, hne]
      · simp [putAcct, lookupAcct, hax, ih]

namespace trust_oracle

/-- Every risk byte 0..3 deserializes to the RiskLevel with that
discriminant. -/
theorem parseRiskLevel_of_le3 {rb : Nat} (h : rb ≤ 3) :
    ∃ r : RiskLevel, parseRiskLevel rb = some r ∧ r.toByte = rb := by
  interval_cases rb
  · exact ⟨.low, rfl, rfl⟩
  · exact ⟨.medium, rfl, rfl⟩
  · exact ⟨.high, rfl, rfl⟩
  · exact ⟨.critical, rfl, rfl⟩

/-- Every risk byte above 3 fails deserialization. -/
theorem parseRiskLevel_of_gt3 {rb : Nat} (h : 3 < rb) :
    parseRiskLevel rb = none := by
  have h0 : rb ≠ 0 := by omega
  have h1 : rb ≠ 1 := by omega
  have h2 : rb ≠ 2 := by omega
  have h3 : rb ≠ 3 := by omega
  simp [parseRiskLevel, h0, h1, h2, h3]

/-- Inversion of a successful update_trust_score call: the risk byte
deserialized, the supplied address was the derived PDA, the score passed
the range check, and the resulting store is the upsert of the record built
from the arguments. -/
theorem update_ok_inv {s s' : Store} {acctAddr : List Nat}
    {oracle wallet trust_score riskByte : Nat} {now : Int}
    (h : update_trust_score s acctAddr oracle wallet trust_score riskByte now
          = Except.ok s') :
    ∃ risk_level : RiskLevel,
      parseRiskLevel riskByte = some risk_level ∧
      acctAddr = deriveAddress oracle wallet ∧
      trust_score ≤ 100 ∧
      s' = putAcct s acctAddr
        { wallet_pubkey := wallet
          trust_score := trust_score
          risk_level := risk_level
          last_updated := now
          oracle_pubkey := oracle } := by
  unfold update_trust_score at h
  rcases hp : parseRiskLevel riskByte with _ | risk_level <;> rw [hp] at h
  · exact absurd h (by simp)
  · by_cases haddr : acctAddr = deriveAddress oracle wallet
    · by_cases hsc : trust_score ≤ 100
      · refine ⟨risk_level, rfl, haddr, hsc, ?_⟩
        simp only [if_pos haddr, if_pos hsc] at h
        exact (Except.ok.injEq _ _ ▸ h).symm
      · simp [if_pos haddr, if_neg hsc] at h
    · simp [if_neg haddr] at h

/-- Every record in a reachable trust oracle store has score at most
100. -/
theorem reachable_score_le (s : Store) (h : Reachable s) :
    ∀ addr acct, lookupAcct s addr = some acct → acct.trust_score ≤ 100 := by
  induction h with
  | init => intro addr acct hl; simp [lookupAcct] at hl
  | step s s' acctAddr oracle wallet trust_score riskByte now ho hw hsc hrb hs hok ih =>
      intro addr acct hl
      obtain ⟨risk_level, hp, haddr, hle, hput⟩ := update_ok_inv hok
      subst hput
      by_cases heq : addr = acctAddr
      · subst heq
        rw [lookupAcct_putAcct_self] at hl
        cases hl
        exact hle
      · rw [lookupAcct_putAcct_ne _ _ _ _ heq] at hl
        exact ih addr acct hl

/-- Every record in a reachable trust oracle store sits at the address
derived from its own stored oracle and wallet keys: a lookup through
`deriveAddress o w` returns a record whose wallet_pubkey is `w` and whose
oracle_pubkey is `o`. -/
theorem reachable_addr_binding (s : Store) (h : Reachable s) :
    ∀ o w acct, o < 256 ^ 32 → w < 256 ^ 32 →
      lookupAcct s (deriveAddress o w) = some acct →
      acct.wallet_pubkey = w ∧ acct.oracle_pubkey = o := by
  induction h with
  | init => intro o w acct _ _ hl; simp [lookupAcct] at hl
  | step s s' acctAddr oracle wallet trust_score riskByte now ho hw hsc hrb hs hok ih =>
      intro o w acct hob hwb hl
      obtain ⟨risk_level, hp, haddr, hle, hput⟩ := update_ok_inv hok
      subst hput
      by_cases heq : deriveAddress o w = acctAddr
      · rw [heq, lookupAcct_putAcct_self] at hl
        cases hl
        have hpair := deriveAddress_inj hob hwb ho hw (heq.trans haddr)
        exact ⟨hpair.2.symm, hpair.1.symm⟩
      · rw [lookupAcct_putAcct_ne _ _ _ _ heq] at hl
        exact ih o w acct hob hwb hl

end trust_oracle

namespace blockid_oracle

/-- Inversion of a successful blockid_oracle update_trust_score call: the
supplied address was the derived PDA and the resulting store is the upsert
of the record built from the arguments. -/
theorem blockid_update_ok_inv {s s' : Store} {acctAddr : List Nat}
    {oracle wallet score risk : Nat} {now : Int}
    (h : update_trust_score s acctAddr oracle wallet score risk now
          = Except.ok s') :
    acctAddr = deriveAddress oracle wallet ∧
    s' = putAcct s acctAddr
      { wallet := wallet, score := score, risk := risk, updated_at := now } := by
  unfold update_trust_score at h
  by_cases haddr : acctAddr = deriveAddress oracle wallet
  · refine ⟨haddr, ?_⟩
    simp only [if_pos haddr] at h
    exact (Except.ok.injEq _ _ ▸ h).symm
  · simp [if_neg haddr] at h

/-- Every record in a reachable blockid_oracle store sits at the address
derived from its stored wallet key: a lookup through `deriveAddress o w`
returns a record whose wallet field is `w` (this variant stores no oracle
field). -/
theorem blockid_reachable_addr_binding (s : Store) (h : Reachable s) :
    ∀ o w acct, o < 256 ^ 32 → w < 256 ^ 32 →
      lookupAcct s (deriveAddress o w) = some acct → acct.wallet = w := by
  induction h with
  | init => intro o w acct _ _ hl; simp [lookupAcct] at hl
  | step s s' acctAddr oracle wallet score risk now ho hw hsc hrk hs hok ih =>
      intro o w acct hob hwb hl
      obtain ⟨haddr, hput⟩ := blockid_update_ok_inv hok
      subst hput
      by_cases heq : deriveAddress o w = acctAddr
      · rw [heq, lookupAcct_putAcct_self] at hl
        cases hl
        exact (deriveAddress_inj hob hwb ho hw (heq.trans haddr)).2.symm
      · rw [lookupAcct_putAcct_ne _ _ _ _ heq] at hl
        exact ih o w acct hob hwb hl

end blockid_oracle

/-- C1 counterexample: in the blockid_oracle variant an update with
score = 150 > 100 does not fail at all — it succeeds and creates a record
storing the out-of-range score, so the claim that every update_trust_score
call with score > 100 fails with InvalidTrustScore is false on this
program. -/
theorem blockid_update_accepts_score_150 :
    blockid_oracle.update_trust_score [] (deriveAddress 1 2) 1 2 150 0 5
      = Except.ok [(deriveAddress 1 2,
          { wallet := 2, score := 150, risk := 0, updated_at := 5 })] ∧
    lookupAcct
      [(deriveAddress 1 2,
        ({ wallet := 2, score := 150, risk := 0, updated_at := 5 }
          : blockid_oracle.TrustScoreAccount))] (deriveAddress 1 2)
      = some { wallet := 2, score := 150, risk := 0, updated_at := 5 } ∧
    100 < 150 :=
  ⟨rfl, rfl, by decide⟩

/-- C1 (amended): in the trust_oracle variant, every update_trust_score
call with score > 100 (and a well-formed risk byte, which is checked
first) fails with TrustOracleError::InvalidTrustScore; the failed
transaction leaves storage unchanged, so in particular no record is
created for a previously absent (oracle, wallet) pair. -/
theorem trust_oracle_overlarge_score_fails
    (s : trust_oracle.Store) (oracle wallet trust_score riskByte : Nat)
    (now : Int) (hsc : 100 < trust_score) (hrb : riskByte ≤ 3) :
    trust_oracle.update_trust_score s (deriveAddress oracle wallet)
        oracle wallet trust_score riskByte now
      = Except.error (.program .invalidTrustScore) := by
  obtain ⟨r, hp, htb⟩ := trust_oracle.parseRiskLevel_of_le3 hrb
  have hns : ¬ (trust_score ≤ 100) := by omega
  unfold trust_oracle.update_trust_score
  rw [hp]
  simp [hns]

/-- C1 witness: a concrete rejected call in the trust_oracle variant. -/
theorem trust_oracle_overlarge_score_fails_witness :
    trust_oracle.update_trust_score [] (deriveAddress 1 2) 1 2 150 0 5
      = Except.error (.program .invalidTrustScore) :=
  trust_oracle_overlarge_score_fails [] 1 2 150 0 5 (by decide) (by decide)

/-- C2 counterexample: the blockid_oracle variant reaches, in one
legitimate update step from the empty store, a state holding a record
whose score field is 150 > 100, so the claimed global invariant
score ∈ [0, 100] is false on this program. -/
theorem blockid_reachable_score_150 :
    blockid_oracle.Reachable
      [(deriveAddress 1 2,
        { wallet := 2, score := 150, risk := 0, updated_at := 5 })] ∧
    lookupAcct
      [(deriveAddress 1 2,
        ({ wallet := 2, score := 150, risk := 0, updated_at := 5 }
          : blockid_oracle.TrustScoreAccount))] (deriveAddress 1 2)
      = some { wallet := 2, score := 150, risk := 0, updated_at := 5 } ∧
    100 < (150 : Nat) :=
  ⟨blockid_oracle.Reachable.step [] _ (deriveAddress 1 2) 1 2 150 0 5
      (by decide) (by decide) (by decide) (by decide)
      blockid_oracle.Reachable.init rfl,
   rfl, by decide⟩

/-- C2 (amended): in the trust_oracle variant every record of every
reachable store has trust_score at most 100 — every update preserves the
invariant (the read path does not modify storage). -/
theorem trust_oracle_score_invariant
    (s : trust_oracle.Store) (h : trust_oracle.Reachable s)
    (addr : List Nat) (acct : trust_oracle.TrustScoreAccount)
    (hl : lookupAcct s addr = some acct) :
    acct.trust_score ≤ 100 :=
  trust_oracle.reachable_score_le s h addr acct hl

/-- C2 witness: the invariant evaluated on a concrete reachable store. -/
theorem trust_oracle_score_invariant_witness :
    ({ wallet_pubkey := 2, trust_score := 80, risk_level := .low,
       last_updated := 5, oracle_pubkey := 1 }
      : trust_oracle.TrustScoreAccount).trust_score ≤ 100 :=
  trust_oracle_score_invariant
    [(deriveAddress 1 2,
      { wallet_pubkey := 2, trust_score := 80, risk_level := .low,
        last_updated := 5, oracle_pubkey := 1 })]
    (trust_oracle.Reachable.step [] _ (deriveAddress 1 2) 1 2 80 0 5
      (by decide) (by decide) (by decide) (by decide)
      trust_oracle.Reachable.init rfl)
    (deriveAddress 1 2) _ rfl

/-- C3 counterexample: a signer (key 3) other than the oracle (key 1) that
owns the existing record targets that record through update_trust_score;
the call fails, but with the Anchor seeds-constraint failure, not with
TrustOracleError::UnauthorizedOracle as claimed — that error is declared
by the program yet never raised. -/
theorem other_signer_gets_constraint_seeds :
    trust_oracle.update_trust_score
        [(deriveAddress 1 2,
          { wallet_pubkey := 2, trust_score := 50, risk_level := .low,
            last_updated := 3, oracle_pubkey := 1 })]
        (deriveAddress 1 2) 3 2 80 0 6
      = Except.error .constraintSeeds ∧
    AnchorFailure.constraintSeeds ≠ .program .unauthorizedOracle :=
  ⟨rfl, by decide⟩

/-- C3 (amended): no signer other than the oracle whose key derived a
record's address can mutate that record through update_trust_score: the
call can never succeed, and whenever the risk byte is well formed it fails
with the Anchor seeds-constraint violation (the stored oracle_pubkey of a
reachable record always equals the derivation oracle, so a caller
differing from the stored owner is exactly a caller differing from the
derivation oracle); the failed transaction leaves the record unchanged. -/
theorem update_by_other_signer_rejected
    (s : trust_oracle.Store) (o w caller wallet2 trust_score riskByte : Nat)
    (now : Int)
    (ho : o < 256 ^ 32) (hw : w < 256 ^ 32)
    (hc : caller < 256 ^ 32) (hw2 : wallet2 < 256 ^ 32)
    (hne : caller ≠ o) :
    (∀ s2, trust_oracle.update_trust_score s (deriveAddress o w)
        caller wallet2 trust_score riskByte now ≠ Except.ok s2) ∧
    (riskByte ≤ 3 →
      trust_oracle.update_trust_score s (deriveAddress o w)
          caller wallet2 trust_score riskByte now
        = Except.error .constraintSeeds) := by
  have haddr : deriveAddress o w ≠ deriveAddress caller wallet2 := by
    intro hgl
    exact hne ((deriveAddress_inj ho hw hc hw2 hgl).1.symm)
  constructor
  · intro s2 hok
    obtain ⟨r, hp, haddr2, hle, hput⟩ := trust_oracle.update_ok_inv hok
    exact haddr haddr2
  · intro hrb
    obtain ⟨r, hp, htb⟩ := trust_oracle.parseRiskLevel_of_le3 hrb
    unfold trust_oracle.update_trust_score
    rw [hp]
    simp [haddr]

/-- C3 witness: a concrete foreign-signer call rejected by the seeds
constraint. -/
theorem update_by_other_signer_rejected_witness :
    trust_oracle.update_trust_score [] (deriveAddress 1 2) 3 2 80 0 6
      = Except.error .constraintSeeds :=
  (update_by_other_signer_rejected [] 1 2 3 2 80 0 6
    (by decide) (by decide) (by decide) (by decide) (by decide)).2 (by decide)

/-- C4 (confirmed): for every score in [0, 100] and risk byte in 0..3,
update_trust_score succeeds in both variants; the stored record carries
exactly the submitted score, a risk whose discriminant is exactly the
submitted risk byte, the supplied wallet key, and last_updated equal to
the host clock value of the call — which, under the host guarantee that
the clock has advanced past any earlier write, is strictly greater than
any previously stored timestamp. -/
theorem valid_update_stores_submitted_fields
    (s : trust_oracle.Store) (sb : blockid_oracle.Store)
    (o w trust_score riskByte : Nat) (now : Int)
    (hsc : trust_score ≤ 100) (hrb : riskByte ≤ 3)
    (hclockA : ∀ prev : trust_oracle.TrustScoreAccount,
      lookupAcct s (deriveAddress o w) = some prev → prev.last_updated < now)
    (hclockB : ∀ prev : blockid_oracle.TrustScoreAccount,
      lookupAcct sb (deriveAddress o w) = some prev → prev.updated_at < now) :
    ∃ risk_level : trust_oracle.RiskLevel,
      trust_oracle.parseRiskLevel riskByte = some risk_level ∧
      risk_level.toByte = riskByte ∧
      trust_oracle.update_trust_score s (deriveAddress o w)
          o w trust_score riskByte now
        = Except.ok (putAcct s (deriveAddress o w)
            { wallet_pubkey := w, trust_score := trust_score,
              risk_level := risk_level, last_updated := now,
              oracle_pubkey := o }) ∧
      lookupAcct (putAcct s (deriveAddress o w)
            { wallet_pubkey := w, trust_score := trust_score,
              risk_level := risk_level, last_updated := now,
              oracle_pubkey := o }) (deriveAddress o w)
        = some { wallet_pubkey := w, trust_score := trust_score,
                 risk_level := risk_level, last_updated := now,
                 oracle_pubkey := o } ∧
      (∀ prev : trust_oracle.TrustScoreAccount,
        lookupAcct s (deriveAddress o w) = some prev →
          prev.last_updated < now) ∧
      blockid_oracle.update_trust_score sb (deriveAddress o w)
          o w trust_score riskByte now
        = Except.ok (putAcct sb (deriveAddress o w)
            { wallet := w, score := trust_score, risk := riskByte,
              updated_at := now }) ∧
      lookupAcct (putAcct sb (deriveAddress o w)
            { wallet := w, score := trust_score, risk := riskByte,
              updated_at := now }) (deriveAddress o w)
        = some { wallet := w, score := trust_score, risk := riskByte,
                 updated_at := now } ∧
      (∀ prev : blockid_oracle.TrustScoreAccount,
        lookupAcct sb (deriveAddress o w) = some prev →
          prev.updated_at < now) := by
  obtain ⟨r, hp, htb⟩ := trust_oracle.parseRiskLevel_of_le3 hrb
  refine ⟨r, hp, htb, ?_, lookupAcct_putAcct_self _ _ _, hclockA, ?_,
    lookupAcct_putAcct_self _ _ _, hclockB⟩
  · unfold trust_oracle.update_trust_score
    rw [hp]
    simp [hsc]
  · unfold blockid_oracle.update_trust_score
    simp

/-- C4 witness: a concrete successful update in both variants, evaluated
at oracle key 1, wallet key 2, score 80, risk byte 0, host time 5, from
the empty stores. -/
theorem valid_update_stores_submitted_fields_witness :
    ∃ risk_level : trust_oracle.RiskLevel,
      trust_oracle.parseRiskLevel 0 = some risk_level ∧
      risk_level.toByte = 0 ∧
      trust_oracle.update_trust_score [] (deriveAddress 1 2) 1 2 80 0 5
        = Except.ok (putAcct [] (deriveAddress 1 2)
            { wallet_pubkey := 2, trust_score := 80, risk_level := risk_level,
              last_updated := 5, oracle_pubkey := 1 }) ∧
      lookupAcct (putAcct [] (deriveAddress 1 2)
            ({ wallet_pubkey := 2, trust_score := 80, risk_level := risk_level,
               last_updated := 5, oracle_pubkey := 1 }
              : trust_oracle.TrustScoreAccount)) (deriveAddress 1 2)
        = some ({ wallet_pubkey := 2, trust_score := 80,
                  risk_level := risk_level, last_updated := 5,
                  oracle_pubkey := 1 } : trust_oracle.TrustScoreAccount) ∧
      (∀ prev : trust_oracle.TrustScoreAccount,
        lookupAcct [] (deriveAddress 1 2) = some prev →
          prev.last_updated < 5) ∧
      blockid_oracle.update_trust_score [] (deriveAddress 1 2) 1 2 80 0 5
        = Except.ok (putAcct [] (deriveAddress 1 2)
            { wallet := 2, score := 80, risk := 0, updated_at := 5 }) ∧
      lookupAcct (putAcct [] (deriveAddress 1 2)
            ({ wallet := 2, score := 80, risk := 0, updated_at := 5 }
              : blockid_oracle.TrustScoreAccount)) (deriveAddress 1 2)
        = some ({ wallet := 2, score := 80, risk := 0, updated_at := 5 }
                 : blockid_oracle.TrustScoreAccount) ∧
      (∀ prev : blockid_oracle.TrustScoreAccount,
        lookupAcct [] (deriveAddress 1 2) = some prev →
          prev.updated_at < 5) :=
  valid_update_stores_submitted_fields [] [] 1 2 80 0 5
    (by decide) (by decide)
    (by intro prev hp; simp [lookupAcct] at hp)
    (by intro prev hp; simp [lookupAcct] at hp)

/-- C5 (confirmed): derivation of a record's storage address is a pure
deterministic function of the constant tag b"trust_score" and the
(oracle, wallet) key pair — identical inputs give the identical address —
and it is collision-free: two distinct pairs of genuine 32-byte keys never
derive the same address (the host maps the modelled seed material to the
final address by a fixed collision-resistant function). -/
theorem derive_address_deterministic_injective :
    (∀ o w : Nat, deriveAddress o w = deriveAddress o w) ∧
    (∀ o1 w1 o2 w2 : Nat, o1 < 256 ^ 32 → w1 < 256 ^ 32 →
      o2 < 256 ^ 32 → w2 < 256 ^ 32 → (o1, w1) ≠ (o2, w2) →
      deriveAddress o1 w1 ≠ deriveAddress o2 w2) := by
  refine ⟨fun o w => rfl, ?_⟩
  intro o1 w1 o2 w2 ho1 hw1 ho2 hw2 hne heq
  obtain ⟨h1, h2⟩ := deriveAddress_inj ho1 hw1 ho2 hw2 heq
  exact hne (by rw [h1, h2])

/-- C5 witness: determinism and collision-freedom evaluated at concrete
key pairs (1, 2) and (3, 4). -/
theorem derive_address_deterministic_injective_witness :
    deriveAddress 1 2 = deriveAddress 1 2 ∧
    deriveAddress 1 2 ≠ deriveAddress 3 4 :=
  ⟨derive_address_deterministic_injective.1 1 2,
   derive_address_deterministic_injective.2 1 2 3 4
     (by decide) (by decide) (by decide) (by decide) (by decide)⟩

/-- C6 (confirmed): the upsert is idempotent up to the timestamp — two
successive update_trust_score calls with the same oracle and arguments
(w, 80, Low), at host times t1 < t2 (the host clock having advanced
between the calls), both succeed, and the record after the second call
equals the record after the first in every field except last_updated,
which strictly increases. -/
theorem upsert_idempotent_up_to_timestamp
    (s : trust_oracle.Store) (o w : Nat) (t1 t2 : Int) (h12 : t1 < t2) :
    ∃ (s1 s2 : trust_oracle.Store)
      (r1 r2 : trust_oracle.TrustScoreAccount),
      trust_oracle.update_trust_score s (deriveAddress o w) o w 80 0 t1
        = Except.ok s1 ∧
      lookupAcct s1 (deriveAddress o w) = some r1 ∧
      trust_oracle.update_trust_score s1 (deriveAddress o w) o w 80 0 t2
        = Except.ok s2 ∧
      lookupAcct s2 (deriveAddress o w) = some r2 ∧
      r2.wallet_pubkey = r1.wallet_pubkey ∧
      r2.trust_score = r1.trust_score ∧
      r2.risk_level = r1.risk_level ∧
      r2.oracle_pubkey = r1.oracle_pubkey ∧
      r1.last_updated < r2.last_updated := by
  refine ⟨putAcct s (deriveAddress o w)
      { wallet_pubkey := w, trust_score := 80, risk_level := .low,
        last_updated := t1, oracle_pubkey := o },
    putAcct (putAcct s (deriveAddress o w)
      { wallet_pubkey := w, trust_score := 80, risk_level := .low,
        last_updated := t1, oracle_pubkey := o }) (deriveAddress o w)
      { wallet_pubkey := w, trust_score := 80, risk_level := .low,
        last_updated := t2, oracle_pubkey := o },
    { wallet_pubkey := w, trust_score := 80, risk_level := .low,
      last_updated := t1, oracle_pubkey := o },
    { wallet_pubkey := w, trust_score := 80, risk_level := .low,
      last_updated := t2, oracle_pubkey := o },
    ?_, lookupAcct_putAcct_self _ _ _, ?_, lookupAcct_putAcct_self _ _ _,
    rfl, rfl, rfl, rfl, h12⟩
  · unfold trust_oracle.update_trust_score
    simp [trust_oracle.parseRiskLevel]
  · unfold trust_oracle.update_trust_score
    simp [trust_oracle.parseRiskLevel]

/-- C6 witness: the double update evaluated at oracle key 1, wallet key 2
and host times 3 < 4, from the empty store. -/
theorem upsert_idempotent_up_to_timestamp_witness :
    ∃ (s1 s2 : trust_oracle.Store)
      (r1 r2 : trust_oracle.TrustScoreAccount),
      trust_oracle.update_trust_score [] (deriveAddress 1 2) 1 2 80 0 3
        = Except.ok s1 ∧
      lookupAcct s1 (deriveAddress 1 2) = some r1 ∧
      trust_oracle.update_trust_score s1 (deriveAddress 1 2) 1 2 80 0 4
        = Except.ok s2 ∧
      lookupAcct s2 (deriveAddress 1 2) = some r2 ∧
      r2.wallet_pubkey = r1.wallet_pubkey ∧
      r2.trust_score = r1.trust_score ∧
      r2.risk_level = r1.risk_level ∧
      r2.oracle_pubkey = r1.oracle_pubkey ∧
      r1.last_updated < r2.last_updated :=
  upsert_idempotent_up_to_timestamp [] 1 2 3 4 (by decide)

/-- C7 counterexample: in the blockid_oracle variant an update whose risk
argument is 7 — outside the four defined values 0..3 — does not fail at
all: it succeeds and stores the raw byte, so the claim that every such
call fails with an InvalidRisk error is false on this program (neither
variant even defines an InvalidRisk error code). -/
theorem blockid_update_accepts_risk_7 :
    blockid_oracle.update_trust_score [] (deriveAddress 1 2) 1 2 80 7 5
      = Except.ok [(deriveAddress 1 2,
          { wallet := 2, score := 80, risk := 7, updated_at := 5 })] ∧
    (3 : Nat) < 7 :=
  ⟨rfl, by decide⟩

/-- C7 (amended): in the trust_oracle variant a risk byte outside the four
defined RiskLevel discriminants 0..3 is rejected before the instruction
body runs, because the typed enum argument fails Anchor instruction-data
deserialization — not via an InvalidRisk program error, which the program
does not define; storage is unchanged.  The blockid_oracle variant types
risk as a raw u8 and accepts any byte. -/
theorem trust_oracle_invalid_risk_fails_deserialize
    (s : trust_oracle.Store) (acctAddr : List Nat)
    (o w trust_score riskByte : Nat) (now : Int) (hrb : 3 < riskByte) :
    trust_oracle.update_trust_score s acctAddr o w trust_score riskByte now
      = Except.error .instructionDidNotDeserialize := by
  unfold trust_oracle.update_trust_score
  rw [trust_oracle.parseRiskLevel_of_gt3 hrb]

/-- C7 witness: a concrete call with risk byte 9 rejected at
deserialization in the trust_oracle variant. -/
theorem trust_oracle_invalid_risk_fails_deserialize_witness :
    trust_oracle.update_trust_score [] (deriveAddress 1 2) 1 2 80 9 5
      = Except.error .instructionDidNotDeserialize :=
  trust_oracle_invalid_risk_fails_deserialize [] (deriveAddress 1 2) 1 2 80 9 5
    (by decide)

/-- C8 counterexample: reading a never-updated (oracle, wallet) pair does
fail, but with the Anchor account-load failure raised while resolving
trust_score_account, which is not a program error code at all — the
program defines no NotFound error (its only codes are InvalidTrustScore
and UnauthorizedOracle), so the claim that the read fails with the
NotFound error is false on this program. -/
theorem get_missing_record_not_program_error :
    trust_oracle.get_trust_score [] (deriveAddress 1 2) 1 2
      = Except.error .accountNotInitialized ∧
    AnchorFailure.accountNotInitialized ≠ .program .invalidTrustScore ∧
    AnchorFailure.accountNotInitialized ≠ .program .unauthorizedOracle :=
  ⟨rfl, by decide, by decide⟩

/-- C8 (amended): for every (oracle, wallet) pair whose derived address
holds no record, get_trust_score fails with the Anchor account-load
failure for an uninitialized account (the program defines no NotFound
error code of its own); no record is touched. -/
theorem get_missing_record_fails_account_load
    (s : trust_oracle.Store) (o w : Nat)
    (h : lookupAcct s (deriveAddress o w) = none) :
    trust_oracle.get_trust_score s (deriveAddress o w) o w
      = Except.error .accountNotInitialized := by
  unfold trust_oracle.get_trust_score
  rw [h]

/-- C8 witness: the read evaluated at concrete keys on the empty store. -/
theorem get_missing_record_fails_account_load_witness :
    trust_oracle.get_trust_score [] (deriveAddress 1 2) 1 2
      = Except.error .accountNotInitialized :=
  get_missing_record_fails_account_load [] 1 2 rfl

/-- C9 counterexample: the update body assigns oracle_pubkey on every
successful call, not only at creation — updating an already-existing
record whose stored oracle_pubkey is 7 through a call signed by oracle 1
succeeds and leaves the field holding 1 ≠ 7, so the claim that every
successful update of an existing record preserves the stored oracle field
is false as stated over arbitrary pre-states. -/
theorem update_overwrites_stored_oracle :
    trust_oracle.update_trust_score
        [(deriveAddress 1 2,
          { wallet_pubkey := 2, trust_score := 50, risk_level := .low,
            last_updated := 3, oracle_pubkey := 7 })]
        (deriveAddress 1 2) 1 2 60 0 4
      = Except.ok [(deriveAddress 1 2,
          { wallet_pubkey := 2, trust_score := 60, risk_level := .low,
            last_updated := 4, oracle_pubkey := 1 })] ∧
    ({ wallet_pubkey := 2, trust_score := 60, risk_level := .low,
       last_updated := 4, oracle_pubkey := 1 }
      : trust_oracle.TrustScoreAccount).oracle_pubkey
      ≠ ({ wallet_pubkey := 2, trust_score := 50, risk_level := .low,
           last_updated := 3, oracle_pubkey := 7 }
          : trust_oracle.TrustScoreAccount).oracle_pubkey :=
  ⟨rfl, by decide⟩

/-- C9 (amended): oracle_pubkey is rewritten with the caller's key on
every successful update, but on every store reachable through the program
the stored oracle of an existing record equals the PDA-derivation oracle,
which the seeds constraint forces to be the caller — so for every
successful update of an existing record of a reachable store, the stored
oracle field after the call equals the stored oracle field before it. -/
theorem stored_oracle_stable_on_reachable_updates
    (s s2 : trust_oracle.Store) (addr : List Nat)
    (o w trust_score riskByte : Nat) (now : Int)
    (acct acct2 : trust_oracle.TrustScoreAccount)
    (hreach : trust_oracle.Reachable s)
    (ho : o < 256 ^ 32) (hw : w < 256 ^ 32)
    (hacct : lookupAcct s addr = some acct)
    (hok : trust_oracle.update_trust_score s addr o w trust_score riskByte now
            = Except.ok s2)
    (hacct2 : lookupAcct s2 addr = some acct2) :
    acct2.oracle_pubkey = acct.oracle_pubkey := by
  obtain ⟨r, hp, haddr, hle, hput⟩ := trust_oracle.update_ok_inv hok
  subst hput
  rw [lookupAcct_putAcct_self] at hacct2
  cases hacct2
  subst haddr
  have hbind := trust_oracle.reachable_addr_binding s hreach o w acct ho hw hacct
  exact hbind.2.symm

/-- C9 witness: a record created by oracle 1 at host time 3 and updated
again by oracle 1 at host time 4 keeps its stored oracle key. -/
theorem stored_oracle_stable_on_reachable_updates_witness :
    ({ wallet_pubkey := 2, trust_score := 60, risk_level := .low,
       last_updated := 4, oracle_pubkey := 1 }
      : trust_oracle.TrustScoreAccount).oracle_pubkey
      = ({ wallet_pubkey := 2, trust_score := 80, risk_level := .low,
           last_updated := 3, oracle_pubkey := 1 }
          : trust_oracle.TrustScoreAccount).oracle_pubkey :=
  stored_oracle_stable_on_reachable_updates
    [(deriveAddress 1 2,
      { wallet_pubkey := 2, trust_score := 80, risk_level := .low,
        last_updated := 3, oracle_pubkey := 1 })]
    [(deriveAddress 1 2,
      { wallet_pubkey := 2, trust_score := 60, risk_level := .low,
        last_updated := 4, oracle_pubkey := 1 })]
    (deriveAddress 1 2) 1 2 60 0 4 _ _
    (trust_oracle.Reachable.step [] _ (deriveAddress 1 2) 1 2 80 0 3
      (by decide) (by decide) (by decide) (by decide)
      trust_oracle.Reachable.init rfl)
    (by decide) (by decide) rfl rfl rfl

/-- C10 (confirmed): in every reachable store of either variant, a record
found at the address derived from (o, w) — for genuine 32-byte keys —
stores exactly the wallet key w from which its address was derived, and in
the trust_oracle variant (the one that stores an owner) exactly the
derivation oracle key o, so a record fetched through a derived address can
never describe a different (oracle, wallet) pair. -/
theorem records_bound_to_derivation_keys :
    (∀ s, trust_oracle.Reachable s →
      ∀ o w acct, o < 256 ^ 32 → w < 256 ^ 32 →
        lookupAcct s (deriveAddress o w) = some acct →
        acct.wallet_pubkey = w ∧ acct.oracle_pubkey = o) ∧
    (∀ s, blockid_oracle.Reachable s →
      ∀ o w acct, o < 256 ^ 32 → w < 256 ^ 32 →
        lookupAcct s (deriveAddress o w) = some acct →
        acct.wallet = w) :=
  ⟨trust_oracle.reachable_addr_binding, blockid_oracle.blockid_reachable_addr_binding⟩

/-- C10 witness: the binding evaluated on concrete reachable stores of
both variants, at oracle key 1 and wallet key 2. -/
theorem records_bound_to_derivation_keys_witness :
    (({ wallet_pubkey := 2, trust_score := 80, risk_level := .low,
        last_updated := 5, oracle_pubkey := 1 }
       : trust_oracle.TrustScoreAccount).wallet_pubkey = 2 ∧
     ({ wallet_pubkey := 2, trust_score := 80, risk_level := .low,
        last_updated := 5, oracle_pubkey := 1 }
       : trust_oracle.TrustScoreAccount).oracle_pubkey = 1) ∧
    ({ wallet := 2, score := 80, risk := 0, updated_at := 5 }
      : blockid_oracle.TrustScoreAccount).wallet = 2 :=
  ⟨records_bound_to_derivation_keys.1
      [(deriveAddress 1 2,
        { wallet_pubkey := 2, trust_score := 80, risk_level := .low,
          last_updated := 5, oracle_pubkey := 1 })]
      (trust_oracle.Reachable.step [] _ (deriveAddress 1 2) 1 2 80 0 5
        (by decide) (by decide) (by decide) (by decide)
        trust_oracle.Reachable.init rfl)
      1 2 _ (by decide) (by decide) rfl,
   records_bound_to_derivation_keys.2
      [(deriveAddress 1 2,
        { wallet := 2, score := 80, risk := 0, updated_at := 5 })]
      (blockid_oracle.Reachable.step [] _ (deriveAddress 1 2) 1 2 80 0 5
        (by decide) (by decide) (by decide) (by decide)
        blockid_oracle.Reachable.init rfl)
      1 2 _ (by decide) (by decide) rfl⟩

end BlockId
